import Mathlib

/-!
Shallow embedding of the StatsBomb visualization dashboard's data pipeline
(`src/data/processor.py`, `src/data/loader.py`, `src/utils/visualization.py`).

Raw JSON records are modelled as association lists of string keys to `Value`s.
The validators, the pandas-based tabulation steps and the groupby aggregations
are translated function-by-function; pandas behaviours that the code relies on
(missing columns raising `KeyError`, null keys being dropped by `groupby`,
`count`/`value_counts` skipping nulls, `Series.get` returning NaN for a row
missing a value in an existing column) are modelled explicitly.
-/

/-- A JSON-like value: null, integer, string, array or object.
Floats never appear in the fields the pipeline reads, so numbers are `Int`. -/
inductive Value where
  | vnull : Value
  | vint : Int → Value
  | vstr : String → Value
  | vlist : List Value → Value
  | vobj : List (String × Value) → Value

/-- A raw record (a Python dict): an association list with string keys.
Keys are unique in records coming from JSON; lookup takes the first match. -/
abbrev Record := List (String × Value)

/-- Lookup of a field's value in a record, `none` when the key is absent. -/
def getField (r : Record) (k : String) : Option Value :=
  (r.find? (fun kv => kv.1 == k)).map (fun kv => kv.2)

/-- Python's `field in record`: top-level key presence only. -/
def hasField (r : Record) (k : String) : Bool :=
  (getField r k).isSome

/-- Required fields for a competition record (`validate_competition_data`). -/
def competition_required : List String :=
  ["competition_id", "competition_name", "season_id", "season_name"]

/-- Required fields for a match record (`validate_match_data`). -/
def match_required : List String :=
  ["match_id", "home_team", "away_team", "home_score", "away_score", "match_date"]

/-- Required fields for an event record (`validate_event_data`). -/
def event_required : List String :=
  ["id", "type", "minute", "second", "possession", "play_pattern", "team", "player"]

/-- The common validator loop: keep exactly the records containing every
required field (presence check only), in input order. -/
def validate_records (required : List String) (recs : List Record) : List Record :=
  recs.filter (fun r => required.all (fun f => hasField r f))

/-- `validate_competition_data` from `processor.py`. -/
def validate_competition_data (recs : List Record) : List Record :=
  validate_records competition_required recs

/-- `validate_match_data` from `processor.py`. -/
def validate_match_data (recs : List Record) : List Record :=
  validate_records match_required recs

/-- `validate_event_data` from `processor.py`. -/
def validate_event_data (recs : List Record) : List Record :=
  validate_records event_required recs

/-- Field lookup restricted to string values, `none` for absent or non-string. -/
def getStr (r : Record) (k : String) : Option String :=
  match getField r k with
  | some (.vstr s) => some s
  | _ => none

/-- Errors raised by the pandas layer: accessing or sorting by a column that
does not exist (`KeyError`), an unparseable date (`ParserError`), comparing
incomparable values or assigning a wrong-length column list (`TypeError` /
`ValueError`, collapsed into two constructors). -/
inductive PdError where
  | keyError : PdError
  | typeError : PdError
  | parseError : PdError
  | valueError : PdError
deriving DecidableEq

/-- A string as its list of Unicode code points: the order Python compares
strings by. -/
def strKey (s : String) : List Nat :=
  s.data.map Char.toNat

/-- Strict lexicographic comparison of strings by code points. -/
def strLtP (a b : String) : Prop :=
  List.Lex (· < ·) (strKey a) (strKey b)

instance : DecidableRel strLtP := fun a b => by
  unfold strLtP; infer_instance

/-- Non-strict string comparison: strictly below or equal. -/
def strLeB (a b : String) : Bool :=
  decide (strLtP a b) || a == b

/-- Non-strict string comparison as a Prop, the sort relation for string
group keys. -/
def strLeP (a b : String) : Prop :=
  strLeB a b = true

instance : DecidableRel strLeP := fun a b => by
  unfold strLeP; infer_instance

/-- Lexicographic comparison of string pairs, the order `sort_values` uses on
the two string key columns. -/
def pairLeB (p q : String × String) : Bool :=
  decide (strLtP p.1 q.1) || (p.1 == q.1 && strLeB p.2 q.2)

/-- The sort key of `process_competitions`: the `competition_name` and
`season_name` fields (both strings on the sorted path). -/
def compKey (r : Record) : String × String :=
  ((getStr r "competition_name").getD "", (getStr r "season_name").getD "")

/-- Row order used by `process_competitions`. -/
def compLe (a b : Record) : Prop :=
  pairLeB (compKey a) (compKey b) = true

instance : DecidableRel compLe := fun a b => by
  unfold compLe; infer_instance

/-- `process_competitions` from `processor.py`: build a DataFrame and sort it
by `(competition_name, season_name)`. On an empty input `pd.DataFrame([])`
has no columns at all, so `sort_values` raises `KeyError`; sorting a column
mixing strings with non-strings raises `TypeError` (the sorted path of the
model requires both key fields to be strings in every row). -/
def process_competitions (recs : List Record) : Except PdError (List Record) :=
  if recs.isEmpty then .error .keyError
  else if recs.all (fun r =>
      (getStr r "competition_name").isSome && (getStr r "season_name").isSome) then
    .ok (List.insertionSort compLe recs)
  else .error .typeError

/-- Split a character list into the groups between dashes. -/
def splitDash (cs : List Char) : List (List Char) :=
  match cs with
  | [] => [[]]
  | c :: rest =>
    let r := splitDash rest
    if c == '-' then [] :: r
    else
      match r with
      | g :: gs => (c :: g) :: gs
      | [] => [[c]]

/-- Numeric value of a digit string. -/
def digitsVal (cs : List Char) : Nat :=
  cs.foldl (fun n c => n * 10 + (c.toNat - 48)) 0

/-- Modelled date recognition for `pd.to_datetime`: an ISO `YYYY-MM-DD` digit
string with a month in 1..12 and a day in 1..31 parses to the ordinal
`y*10000 + m*100 + d` (monotone in calendar order); anything else is not a
recognizable date string. -/
def parse_match_date (s : String) : Option Nat :=
  match splitDash s.data with
  | [y, m, d] =>
    if y.length == 4 && m.length == 2 && d.length == 2
        && y.all Char.isDigit && m.all Char.isDigit && d.all Char.isDigit then
      let yn := digitsVal y
      let mn := digitsVal m
      let dn := digitsVal d
      if decide (1 ≤ mn) && decide (mn ≤ 12) && decide (1 ≤ dn) && decide (dn ≤ 31) then
        some (yn * 10000 + mn * 100 + dn)
      else none
    else none
  | _ => none

/-- The parsed date of a record's `match_date` field, when it is a parseable
string. -/
def dateRank (r : Record) : Option Nat :=
  match getStr r "match_date" with
  | some s => parse_match_date s
  | none => none

/-- Order on optional date ordinals with missing dates (NaT) last, as
`sort_values` places them. -/
def optLeB (a b : Option Nat) : Bool :=
  match a, b with
  | _, none => true
  | none, some _ => false
  | some x, some y => x ≤ y

/-- Row order used by `process_matches`: ascending parsed `match_date`. -/
def matchDateLe (a b : Record) : Prop :=
  optLeB (dateRank a) (dateRank b) = true

instance : DecidableRel matchDateLe := fun a b => by
  unfold matchDateLe; infer_instance

/-- What `pd.to_datetime` does to one record's `match_date` cell: a missing or
null value becomes NaT, a recognizable date string parses, an unrecognizable
string raises a parse error, and a non-string value raises a type error. -/
def dateErr (r : Record) : Option PdError :=
  match getField r "match_date" with
  | none => none
  | some .vnull => none
  | some (.vstr s) => if (parse_match_date s).isSome then none else some .parseError
  | some _ => some .typeError

/-- `process_matches` from `processor.py`: build a DataFrame, convert the
`match_date` column with `pd.to_datetime` (raising on the first bad cell) and
sort ascending by the parsed dates. On an empty input the frame has no
columns, so `df['match_date']` raises `KeyError`. -/
def process_matches (recs : List Record) : Except PdError (List Record) :=
  if recs.isEmpty then .error .keyError
  else match recs.findSome? dateErr with
    | some e => .error e
    | none => .ok (List.insertionSort matchDateLe recs)

/-- The fields of an object-valued cell, `none` for absent or non-object
(calling `.get` on a non-dict raises in Python). -/
def asObj : Option Value → Option (List (String × Value))
  | some (.vobj fs) => some fs
  | _ => none

/-- The integer of an int-valued cell, `none` otherwise. -/
def asInt : Option Value → Option Int
  | some (.vint n) => some n
  | _ => none

/-- Lookup inside a nested object's field list. -/
def getF (fs : List (String × Value)) (k : String) : Option Value :=
  (fs.find? (fun kv => kv.1 == k)).map (fun kv => kv.2)

/-- `x.get('name')` on a nested object: the string name if present,
`none` for an absent or null name. -/
def strName (fs : List (String × Value)) : Option String :=
  match getF fs "name" with
  | some (.vstr s) => some s
  | _ => none

/-- Derived name column for an event record: the nested object's `name`
under top-level key `k`, `none` when the object lacks the key. -/
def nestedName (r : Record) (k : String) : Option String :=
  match asObj (getField r k) with
  | some fs => strName fs
  | none => none

/-- Whether the object under key `k` has a `name` entry. -/
def objHasName (r : Record) (k : String) : Bool :=
  match asObj (getField r k) with
  | some fs => fs.any (fun kv => kv.1 == "name")
  | none => false

/-- One row of the tabulated events DataFrame: the columns the pipeline reads
downstream. `id` and `location` are the original cells (`none` when the record
lacked the key); the rest are the derived columns of `process_events`. -/
structure EventRow where
  id : Option Value
  event_type : Option String
  team_name : Option String
  player_name : Option String
  timestamp : Int
  shot : Value
  location : Option Value

/-- Whether a cell counts as null for pandas (`count`, `groupby`,
`value_counts` all skip nulls): a missing cell or a null value. -/
def isNullV : Option Value → Bool
  | none => true
  | some .vnull => true
  | some _ => false

/-- The derived `shot` cell of one row, mirroring
`x.get('shot', {}) if x['event_type'] == 'Shot' else {}` on a row Series:
for a Shot row the original `shot` cell when the record has one; otherwise
NaN (`Value.vnull`) when the `shot` column exists in the frame (some other
record supplied one), and the `{}` default only when no record has a `shot`
key at all. Non-Shot rows always get `{}`. -/
def shotCell (hasShotCol : Bool) (r : Record) (et : Option String) : Value :=
  if et == some "Shot" then
    match getField r "shot" with
    | some v => v
    | none => if hasShotCol then .vnull else .vobj []
  else .vobj []

/-- `process_events` row construction for one record, given whether any
record in the frame has a `shot` key (i.e. whether the `shot` column exists).
Fails (Python raises) when `type`, `team` or `player` is not an object or
`minute`/`second` is not an integer; numeric minute/second are assumed, as in
the validated dataset. -/
def toRow (hasShotCol : Bool) (r : Record) : Option EventRow := do
  let tfs ← asObj (getField r "type")
  let teamfs ← asObj (getField r "team")
  let pfs ← asObj (getField r "player")
  let m ← asInt (getField r "minute")
  let s ← asInt (getField r "second")
  let et := strName tfs
  pure { id := getField r "id", event_type := et, team_name := strName teamfs,
         player_name := strName pfs, timestamp := m * 60 + s,
         shot := shotCell hasShotCol r et,
         location := getField r "location" }

/-- Row-by-row traversal: `some` of all rows or `none` if any row fails. -/
def mapRows (f : Record → Option EventRow) : List Record → Option (List EventRow)
  | [] => some []
  | r :: rs =>
    match f r, mapRows f rs with
    | some row, some rows => some (row :: rows)
    | _, _ => none

/-- `process_events` from `processor.py`: tabulate validated events and derive
`event_type`, `team_name`, `player_name`, `timestamp` and `shot`. On an empty
input the frame has no columns and `df['type']` raises `KeyError` (`none`). -/
def process_events (recs : List Record) : Option (List EventRow) :=
  if recs.isEmpty then none
  else mapRows (toRow (recs.any (fun r => hasField r "shot"))) recs

/-- One row of `get_team_stats`. The `event_breakdown` association list models
the Python dict `value_counts().to_dict()`: keys are distinct; entry order is
not significant for a mapping. -/
structure TeamStat where
  team_name : String
  total_events : Nat
  event_breakdown : List (String × Nat)
deriving DecidableEq

/-- One row of `get_player_stats`. -/
structure PlayerStat where
  team_name : String
  player_name : String
  total_events : Nat
  event_breakdown : List (String × Nat)
deriving DecidableEq

/-- `value_counts().to_dict()` on a group's `event_type` column: occurrence
counts of each distinct non-null value. -/
def breakdownOf (g : List EventRow) : List (String × Nat) :=
  let ets := g.filterMap (fun row => row.event_type)
  ets.dedup.map (fun t => (t, ets.count t))

/-- Group keys of `groupby('team_name')`: distinct non-null team names
(pandas drops null keys), sorted ascending as `groupby` sorts them. -/
def teamKeys (rows : List EventRow) : List String :=
  List.insertionSort strLeP (rows.filterMap (fun row => row.team_name)).dedup

/-- `get_team_stats` from `processor.py`: group the tabulated events by
`team_name`; `total_events` is `count` of the `id` column (non-null cells);
`event_breakdown` is the group's `event_type` value counts. -/
def get_team_stats (rows : List EventRow) : List TeamStat :=
  (teamKeys rows).map (fun t =>
    let g := rows.filter (fun row => row.team_name == some t)
    { team_name := t
      total_events := (g.filter (fun row => !(isNullV row.id))).length
      event_breakdown := breakdownOf g })

/-- The `(team_name, player_name)` group key of a row; `none` when either
component is null, in which case `groupby` drops the row. -/
def keyTP (row : EventRow) : Option (String × String) :=
  match row.team_name, row.player_name with
  | some t, some p => some (t, p)
  | _, _ => none

/-- Lexicographic order on string pairs as a Prop, for sorting group keys. -/
def pairLeP (p q : String × String) : Prop := pairLeB p q = true

instance : DecidableRel pairLeP := fun p q => by
  unfold pairLeP; infer_instance

/-- Group keys of `groupby(['team_name', 'player_name'])`: distinct non-null
pairs, sorted ascending. -/
def pairKeys (rows : List EventRow) : List (String × String) :=
  List.insertionSort pairLeP (rows.filterMap keyTP).dedup

/-- `get_player_stats` from `processor.py`: identical aggregation grouped by
the `(team_name, player_name)` pair. -/
def get_player_stats (rows : List EventRow) : List PlayerStat :=
  (pairKeys rows).map (fun k =>
    let g := rows.filter (fun row => keyTP row == some k)
    { team_name := k.1
      player_name := k.2
      total_events := (g.filter (fun row => !(isNullV row.id))).length
      event_breakdown := breakdownOf g })

/-- The event-type filter at the top of `create_heatmap`. -/
def filterByType (rows : List EventRow) (etFilter : Option String) : List EventRow :=
  match etFilter with
  | some t => rows.filter (fun row => row.event_type == some t)
  | none => rows

/-- Width contributed by one `location` cell under
`events_df['location'].apply(pd.Series)`: a list becomes one column per
element; a missing cell (NaN) or scalar becomes a single column. -/
def locWidth : Option Value → Nat
  | some (.vlist xs) => xs.length
  | _ => 1

/-- Element `i` of the unpacked location of a row, `none` where the unpacked
frame holds NaN (missing cell, short list, or null element). -/
def locElt (v : Option Value) (i : Nat) : Option Value :=
  match v with
  | some (.vlist xs) =>
    match xs.get? i with
    | some .vnull => none
    | some w => some w
    | none => none
  | some w => if i == 0 then some w else none
  | none => none

/-- Column count of the unpacked location frame: the widest location among
the remaining rows determines how many columns `apply(pd.Series)` yields. -/
def locMaxWidth (fr : List EventRow) : Nat :=
  (fr.map (fun row => locWidth row.location)).foldr Nat.max 0

/-- The location-extraction stage of `create_heatmap`: filter by event type,
unpack the `location` column with `apply(pd.Series)` and name the columns
`['x', 'y']`. A missing `location` column raises `KeyError`; the column
renaming raises (`ValueError`) whenever the unpacked frame does not have
exactly two columns, i.e. when the widest remaining location is not a
two-element array (or no rows remain). No row is dropped and no count of
malformed rows is taken. -/
def create_heatmap_locs (rows : List EventRow) (etFilter : Option String) :
    Except PdError (List (Option Value × Option Value)) :=
  if rows.all (fun row => row.location.isNone) then .error .keyError
  else
    let fr := filterByType rows etFilter
    if locMaxWidth fr == 2 then
      .ok (fr.map (fun row => (locElt row.location 0, locElt row.location 1)))
    else .error .valueError

/-- An event record missing most required fields (only `id`). -/
def exBadEvent : Record := [("id", Value.vint 1)]

/-- Competition record helper: `competition_name` and `season_name` plus ids. -/
def mkComp (cid : Int) (name season : String) : Record :=
  [("competition_id", .vint cid), ("competition_name", .vstr name),
   ("season_id", .vint 1), ("season_name", .vstr season)]

def compB2021 : Record := mkComp 1 "B" "2021"

def compA2021 : Record := mkComp 2 "A" "2021"

def compA2020 : Record := mkComp 3 "A" "2020"

/-- The spec's sorting example: competitions (B,2021), (A,2021), (A,2020). -/
def exCompetitions : List Record := [compB2021, compA2021, compA2020]

/-- Match record helper with a given id and date string. -/
def mkMatch (mid : Int) (d : String) : Record :=
  [("match_id", .vint mid), ("home_team", .vobj [("home_team_name", .vstr "H")]),
   ("away_team", .vobj [("away_team_name", .vstr "W")]),
   ("home_score", .vint 1), ("away_score", .vint 0), ("match_date", .vstr d)]

def matchJan2 : Record := mkMatch 1 "2022-01-02"

def matchJan1 : Record := mkMatch 2 "2022-01-01"

def exMatches : List Record := [matchJan2, matchJan1]

/-- A match whose `match_date` is not a recognizable date string. -/
def matchBadDate : Record := mkMatch 3 "not-a-date"

/-- Event record helper: id value, type object, team object, player object,
minute and second; all eight required fields present. -/
def mkEvent (idv : Value) (ty team pl : List (String × Value)) (m s : Int) : Record :=
  [("id", idv), ("type", .vobj ty), ("minute", .vint m), ("second", .vint s),
   ("possession", .vint 1), ("play_pattern", .vobj [("name", .vstr "Regular Play")]),
   ("team", .vobj team), ("player", .vobj pl)]

/-- The spec's end-to-end sample event: a Shot at minute 10, second 30 with a
location and no nested shot detail. -/
def evShot1 : Record :=
  mkEvent (.vint 1) [("name", .vstr "Shot")] [("name", .vstr "Team A")]
    [("name", .vstr "Player 1")] 10 30
  ++ [("location", .vlist [.vint 100, .vint 50])]

def exEventsC4 : List Record := [evShot1]

def rowsC4 : List EventRow := (process_events exEventsC4).getD []

/-- Event whose `type` object lacks a `name` key (validates fine). -/
def evNoTypeName : Record :=
  mkEvent (.vint 1) [] [("name", .vstr "A")] [("name", .vstr "P1")] 0 0

/-- Event with a null `id` value (the key is present, so it validates). -/
def evNullId : Record :=
  mkEvent .vnull [("name", .vstr "Pass")] [("name", .vstr "B")] [("name", .vstr "P2")] 0 0

/-- Event whose `team` object lacks a `name` key. -/
def evNoTeamName : Record :=
  mkEvent (.vint 2) [("name", .vstr "Pass")] [] [("name", .vstr "P3")] 0 0

def exEventsC3 : List Record := [evNoTypeName, evNullId, evNoTeamName]

def rowsC3 : List EventRow := (process_events exEventsC3).getD []

/-- Event whose `player` object lacks a `name` key. -/
def evNoPlayerName : Record :=
  mkEvent (.vint 1) [("name", .vstr "Pass")] [("name", .vstr "A")] [] 0 0

def exEventsC5 : List Record := [evNoPlayerName]

def rowsC5 : List EventRow := (process_events exEventsC5).getD []

def evP1a : Record :=
  mkEvent (.vint 1) [("name", .vstr "Pass")] [("name", .vstr "A")] [("name", .vstr "P1")] 0 0

def evP1b : Record :=
  mkEvent (.vint 2) [("name", .vstr "Shot")] [("name", .vstr "A")] [("name", .vstr "P1")] 0 1

def evP2 : Record :=
  mkEvent (.vint 3) [("name", .vstr "Pass")] [("name", .vstr "A")] [("name", .vstr "P2")] 0 2

/-- Two events by player P1 and one by P2, all on team A. -/
def exEventsC5w : List Record := [evP1a, evP1b, evP2]

def rowsC5w : List EventRow := (process_events exEventsC5w).getD []

/-- A Shot event with no nested `shot` detail object. -/
def evShotNoDetail : Record :=
  mkEvent (.vint 1) [("name", .vstr "Shot")] [("name", .vstr "A")] [("name", .vstr "P1")] 0 0

/-- A Shot event carrying a nested `shot` detail object. -/
def evShotWithDetail : Record :=
  mkEvent (.vint 2) [("name", .vstr "Shot")] [("name", .vstr "A")] [("name", .vstr "P2")] 0 1
  ++ [("shot", .vobj [("outcome", .vstr "Goal")])]

def exEventsC9 : List Record := [evShotNoDetail, evShotWithDetail]

def rowsC9 : List EventRow := (process_events exEventsC9).getD []

/-- Event whose `type`, `team` and `player` objects all lack a `name` key. -/
def evAllNoNames : Record := mkEvent (.vint 1) [] [] [] 3 4

def exEventsC10 : List Record := [evAllNoNames]

def rowsC10 : List EventRow := (process_events exEventsC10).getD []

/-- Tabulated row with a well-formed two-element location. -/
def rowLocGood : EventRow :=
  { id := some (.vint 1), event_type := some "Pass", team_name := some "A",
    player_name := some "P", timestamp := 0, shot := .vobj [],
    location := some (.vlist [.vint 100, .vint 50]) }

/-- Tabulated row with no location at all. -/
def rowLocMissing : EventRow :=
  { id := some (.vint 2), event_type := some "Pass", team_name := some "A",
    player_name := some "P", timestamp := 0, shot := .vobj [], location := none }

/-- Tabulated row whose location is a three-element array. -/
def rowLocThree : EventRow :=
  { id := some (.vint 3), event_type := some "Pass", team_name := some "A",
    player_name := some "P", timestamp := 0, shot := .vobj [],
    location := some (.vlist [.vint 1, .vint 2, .vint 3]) }

/-- Whether every required event field is present, the three nested fields are
objects and minute/second are integers: the shape of validated dataset events
(the nested objects may or may not carry a `name`). -/
def eventShapeOk (r : Record) : Bool :=
  event_required.all (fun f => hasField r f)
  && (asObj (getField r "type")).isSome
  && (asObj (getField r "team")).isSome
  && (asObj (getField r "player")).isSome
  && (asInt (getField r "minute")).isSome
  && (asInt (getField r "second")).isSome

theorem strKey_inj (a b : String) (h : strKey a = strKey b) : a = b := by
  have hinj : Function.Injective Char.toNat := fun c d hcd => Char.ext (UInt32.ext hcd)
  have hd : a.data = b.data := List.map_injective_iff.mpr hinj h
  cases a; cases b; simp_all

theorem strLtP_trans (a b c : String) (h1 : strLtP a b) (h2 : strLtP b c) : strLtP a c := by
  have ht : IsTrans (List Nat) (List.Lex (· < ·)) := inferInstance
  exact ht.trans _ _ _ h1 h2

theorem strLtP_asymm (a b : String) (h : strLtP a b) : ¬ strLtP b a := by
  have ha : IsAsymm (List Nat) (List.Lex (· < ·)) := inferInstance
  exact ha.asymm _ _ h

theorem strLtP_trichot (a b : String) : strLtP a b ∨ a = b ∨ strLtP b a := by
  have ht : IsTrichotomous (List Nat) (List.Lex (· < ·)) := inferInstance
  rcases ht.trichotomous (strKey a) (strKey b) with h | h | h
  · exact Or.inl h
  · exact Or.inr (Or.inl (strKey_inj a b h))
  · exact Or.inr (Or.inr h)

theorem pairLeB_total (p q : String × String) : pairLeB p q = true ∨ pairLeB q p = true := by
  unfold pairLeB strLeB
  simp only [Bool.or_eq_true, Bool.and_eq_true, decide_eq_true_eq, beq_iff_eq]
  rcases strLtP_trichot p.1 q.1 with h | h | h
  · exact Or.inl (Or.inl h)
  · rcases strLtP_trichot p.2 q.2 with h2 | h2 | h2
    · exact Or.inl (Or.inr ⟨h, Or.inl h2⟩)
    · exact Or.inl (Or.inr ⟨h, Or.inr h2⟩)
    · exact Or.inr (Or.inr ⟨h.symm, Or.inl h2⟩)
  · exact Or.inr (Or.inl h)

theorem pairLeB_trans (p q r : String × String)
    (h1 : pairLeB p q = true) (h2 : pairLeB q r = true) : pairLeB p r = true := by
  unfold pairLeB strLeB at *
  simp only [Bool.or_eq_true, Bool.and_eq_true, decide_eq_true_eq, beq_iff_eq] at *
  rcases h1 with h1 | ⟨e1, l1⟩
  · rcases h2 with h2 | ⟨e2, _⟩
    · exact Or.inl (strLtP_trans _ _ _ h1 h2)
    · exact Or.inl (e2 ▸ h1)
  · rcases h2 with h2 | ⟨e2, l2⟩
    · exact Or.inl (e1 ▸ h2)
    · refine Or.inr ⟨e1.trans e2, ?_⟩
      rcases l1 with l1 | l1
      · rcases l2 with l2 | l2
        · exact Or.inl (strLtP_trans _ _ _ l1 l2)
        · exact Or.inl (l2 ▸ l1)
      · rcases l2 with l2 | l2
        · exact Or.inl (l1 ▸ l2)
        · exact Or.inr (l1.trans l2)

instance : IsTotal Record compLe :=
  ⟨fun a b => pairLeB_total (compKey a) (compKey b)⟩

instance : IsTrans Record compLe :=
  ⟨fun a b c h1 h2 => pairLeB_trans (compKey a) (compKey b) (compKey c) h1 h2⟩

theorem optLeB_total (a b : Option Nat) : optLeB a b = true ∨ optLeB b a = true := by
  cases a <;> cases b <;> simp [optLeB]
  omega

theorem optLeB_trans (a b c : Option Nat)
    (h1 : optLeB a b = true) (h2 : optLeB b c = true) : optLeB a c = true := by
  cases a <;> cases b <;> cases c <;> simp_all [optLeB]
  omega

instance : IsTotal Record matchDateLe :=
  ⟨fun a b => optLeB_total (dateRank a) (dateRank b)⟩

instance : IsTrans Record matchDateLe :=
  ⟨fun a b c h1 h2 => optLeB_trans (dateRank a) (dateRank b) (dateRank c) h1 h2⟩

theorem findSome?_eq_none_iff_my {α β : Type} (f : α → Option β) :
    ∀ l : List α, l.findSome? f = none ↔ ∀ a ∈ l, f a = none := by
  intro l
  induction l with
  | nil => simp [List.findSome?]
  | cons x xs ih =>
    simp only [List.findSome?, List.mem_cons]
    cases hfx : f x with
    | some b => simp [hfx]
    | none =>
      simp only []
      constructor
      · intro h a ha
        rcases ha with rfl | ha
        · exact hfx
        · exact (ih.mp h) a ha
      · intro h
        exact ih.mpr (fun a ha => h a (Or.inr ha))

theorem findSome?_mem {α β : Type} (f : α → Option β) :
    ∀ (l : List α) (b : β), l.findSome? f = some b → ∃ a ∈ l, f a = some b := by
  intro l
  induction l with
  | nil => intro b h; simp [List.findSome?] at h
  | cons x xs ih =>
    intro b h
    simp only [List.findSome?] at h
    cases hfx : f x with
    | some c =>
      rw [hfx] at h
      exact ⟨x, List.mem_cons_self x xs, hfx.trans h⟩
    | none =>
      rw [hfx] at h
      obtain ⟨a, ha, hfa⟩ := ih b h
      exact ⟨a, List.mem_cons_of_mem x ha, hfa⟩

theorem mapRows_spec (f : Record → Option EventRow) :
    ∀ (l : List Record) (ys : List EventRow), mapRows f l = some ys →
      ys.length = l.length ∧
      ∀ i (hi : i < l.length) (hj : i < ys.length),
        f (l.get ⟨i, hi⟩) = some (ys.get ⟨i, hj⟩) := by
  intro l
  induction l with
  | nil =>
    intro ys h
    simp only [mapRows, Option.some.injEq] at h
    subst h
    exact ⟨rfl, fun i hi => absurd hi (Nat.not_lt_zero i)⟩
  | cons r rs ih =>
    intro ys h
    simp only [mapRows] at h
    cases hfr : f r with
    | none => rw [hfr] at h; cases h
    | some row =>
      rw [hfr] at h
      cases hrs : mapRows f rs with
      | none => rw [hrs] at h; cases h
      | some rows =>
        rw [hrs] at h
        simp only [Option.some.injEq] at h
        subst h
        obtain ⟨hlen, hidx⟩ := ih rows hrs
        refine ⟨by simp [hlen], ?_⟩
        intro i hi hj
        cases i with
        | zero => simpa using hfr
        | succ n =>
          simp only [List.length_cons, Nat.succ_lt_succ_iff] at hi hj
          simpa using hidx n hi hj

theorem mapRows_isSome (f : Record → Option EventRow) :
    ∀ l : List Record, (∀ r ∈ l, (f r).isSome = true) →
      ∃ ys, mapRows f l = some ys := by
  intro l
  induction l with
  | nil => intro _; exact ⟨[], rfl⟩
  | cons r rs ih =>
    intro h
    have hr := h r (List.mem_cons_self r rs)
    obtain ⟨row, hrow⟩ := Option.isSome_iff_exists.mp hr
    obtain ⟨rows, hrows⟩ := ih (fun a ha => h a (List.mem_cons_of_mem r ha))
    exact ⟨row :: rows, by simp [mapRows, hrow, hrows]⟩

theorem toRow_eq_some_iff (hs : Bool) (r : Record) (row : EventRow) :
    toRow hs r = some row ↔
    ∃ tfs teamfs pfs m s,
      asObj (getField r "type") = some tfs ∧
      asObj (getField r "team") = some teamfs ∧
      asObj (getField r "player") = some pfs ∧
      asInt (getField r "minute") = some m ∧
      asInt (getField r "second") = some s ∧
      row = { id := getField r "id", event_type := strName tfs,
              team_name := strName teamfs, player_name := strName pfs,
              timestamp := m * 60 + s, shot := shotCell hs r (strName tfs),
              location := getField r "location" } := by
  unfold toRow
  simp only [bind, Option.bind_eq_some, pure, Option.some.injEq]
  constructor
  · rintro ⟨tfs, h1, teamfs, h2, pfs, h3, m, h4, s, h5, hrow⟩
    exact ⟨tfs, teamfs, pfs, m, s, h1, h2, h3, h4, h5, hrow.symm⟩
  · rintro ⟨tfs, teamfs, pfs, m, s, h1, h2, h3, h4, h5, hrow⟩
    exact ⟨tfs, h1, teamfs, h2, pfs, h3, m, h4, s, h5, hrow.symm⟩

theorem strName_eq_none_of_no_name (fs : List (String × Value))
    (h : fs.any (fun kv => kv.1 == "name") = false) : strName fs = none := by
  unfold strName getF
  cases hf : fs.find? (fun kv => kv.1 == "name") with
  | none => simp
  | some kv =>
    have hp := List.find?_some hf
    have hm := List.mem_of_find?_eq_some hf
    have : fs.any (fun kv => kv.1 == "name") = true := List.any_eq_true.mpr ⟨kv, hm, hp⟩
    rw [this] at h
    cases h

theorem length_filterMap_of_isSome {α β : Type} (f : α → Option β) :
    ∀ l : List α, (∀ x ∈ l, (f x).isSome = true) → (l.filterMap f).length = l.length := by
  intro l
  induction l with
  | nil => intro _; rfl
  | cons x xs ih =>
    intro h
    have hx := h x (List.mem_cons_self x xs)
    obtain ⟨y, hy⟩ := Option.isSome_iff_exists.mp hx
    rw [List.filterMap_cons, hy]
    simp [ih (fun a ha => h a (List.mem_cons_of_mem x ha))]

theorem getStr_eq_some_iff (r : Record) (k : String) (s : String) :
    getStr r k = some s ↔ getField r k = some (.vstr s) := by
  unfold getStr
  cases h : getField r k with
  | none => simp
  | some v => cases v <;> simp_all

/-- Claim C1: for every raw record list and each record kind's required field
set, the validator returns exactly the subsequence of input records that
contain every required field: the output is a sublist of the input (each kept
record field-for-field its input record, so output size is at most input
size), membership in the output is equivalent to membership in the input plus
presence of all required fields, and a record missing any required field is
excluded. The three kind validators are the instantiations at the
competition, match and event required-field sets. -/
theorem c1_validator_exact_subsequence (required : List String) (recs : List Record) :
    (validate_records required recs).Sublist recs
    ∧ (validate_records required recs).length ≤ recs.length
    ∧ (∀ r ∈ validate_records required recs, ∀ f ∈ required, hasField r f = true)
    ∧ (∀ r, r ∈ validate_records required recs ↔
        r ∈ recs ∧ ∀ f ∈ required, hasField r f = true)
    ∧ (∀ r ∈ recs, (∃ f ∈ required, hasField r f = false) →
        r ∉ validate_records required recs)
    ∧ validate_competition_data recs = validate_records competition_required recs
    ∧ validate_match_data recs = validate_records match_required recs
    ∧ validate_event_data recs = validate_records event_required recs := by
  have hmem : ∀ r, r ∈ validate_records required recs ↔
      r ∈ recs ∧ ∀ f ∈ required, hasField r f = true := by
    intro r
    unfold validate_records
    rw [List.mem_filter, List.all_eq_true]
  refine ⟨List.filter_sublist recs, List.length_filter_le _ recs,
    fun r hr => ((hmem r).mp hr).2, hmem, ?_, rfl, rfl, rfl⟩
  intro r _ ⟨f, hf, hbad⟩ hrin
  have := ((hmem r).mp hrin).2 f hf
  rw [this] at hbad
  cases hbad

/-- Claim C1 witness: a record carrying only an id is missing the required
`type` field and is excluded by the event validator. -/
theorem c1_witness :
    hasField exBadEvent "type" = false
    ∧ exBadEvent ∉ validate_event_data [exBadEvent] := by
  refine ⟨rfl, ?_⟩
  exact (c1_validator_exact_subsequence event_required [exBadEvent]).2.2.2.2.1
    exBadEvent (List.mem_singleton.mpr rfl) ⟨"type", by decide, rfl⟩

/-- Claim C2 (code bug): a failed fetch returns the empty list and validation
passes it through, but tabulation then aborts instead of producing a zero-row
result: `pd.DataFrame([])` has no columns, so `sort_values` on the
competitions frame and the `match_date` column access both raise `KeyError`. -/
theorem c2_empty_fetch_aborts_pipeline :
    validate_competition_data [] = []
    ∧ process_competitions (validate_competition_data []) = .error .keyError
    ∧ validate_match_data [] = []
    ∧ process_matches (validate_match_data []) = .error .keyError :=
  ⟨rfl, rfl, rfl, rfl⟩

/-- Claim C6: every tabulated competitions output is a permutation of the
validated input sorted ascending by the (competition_name, season_name) key
under string comparison, and the spec's concrete example
[(B,2021), (A,2021), (A,2020)] sorts to [(A,2020), (A,2021), (B,2021)]. -/
theorem c6_competitions_sorted (recs : List Record) :
    (∀ out, process_competitions recs = .ok out →
      out.Perm recs ∧ List.Sorted compLe out)
    ∧ process_competitions exCompetitions = .ok [compA2020, compA2021, compB2021] := by
  refine ⟨?_, rfl⟩
  intro out h
  unfold process_competitions at h
  split at h
  · cases h
  · split at h
    · simp only [Except.ok.injEq] at h
      subst h
      exact ⟨List.perm_insertionSort compLe recs, List.sorted_insertionSort compLe recs⟩
    · cases h

/-- Claim C6 witness: the sorted concrete output is a permutation of the
example input and is sorted by the competition key order. -/
theorem c6_witness :
    ([compA2020, compA2021, compB2021] : List Record).Perm exCompetitions
    ∧ List.Sorted compLe [compA2020, compA2021, compB2021] :=
  (c6_competitions_sorted exCompetitions).1 [compA2020, compA2021, compB2021] rfl

/-- Claim C7: tabulating a nonempty batch of matches with string dates parses
each `match_date` and fails with a parse error exactly when some `match_date`
is not a recognizable date string; on success the output is a permutation of
the input sorted ascending by the parsed `match_date`. -/
theorem c7_matches_parse_and_sort (recs : List Record)
    (hne : recs.isEmpty = false)
    (hstr : ∀ r ∈ recs, (getStr r "match_date").isSome = true) :
    (process_matches recs = .error .parseError ↔
      ∃ r ∈ recs, ∃ s, getStr r "match_date" = some s ∧ parse_match_date s = none)
    ∧ ∀ out, process_matches recs = .ok out →
        out.Perm recs ∧ List.Sorted matchDateLe out := by
  have hde : ∀ r ∈ recs, ∀ s, getStr r "match_date" = some s →
      dateErr r = (if (parse_match_date s).isSome then none else some .parseError) := by
    intro r _ s hsome
    unfold dateErr
    rw [(getStr_eq_some_iff r "match_date" s).mp hsome]
  have hcases : ∀ r ∈ recs, dateErr r = none ∨ dateErr r = some .parseError := by
    intro r hr
    obtain ⟨s, hsome⟩ := Option.isSome_iff_exists.mp (hstr r hr)
    rw [hde r hr s hsome]
    by_cases hp : (parse_match_date s).isSome = true
    · left; rw [if_pos hp]
    · right; rw [if_neg hp]
  constructor
  · constructor
    · intro h
      unfold process_matches at h
      rw [if_neg (by simp [hne])] at h
      cases hfs : recs.findSome? dateErr with
      | none => rw [hfs] at h; cases h
      | some e =>
        obtain ⟨r, hr, hdr⟩ := findSome?_mem dateErr recs e hfs
        obtain ⟨s, hsome⟩ := Option.isSome_iff_exists.mp (hstr r hr)
        refine ⟨r, hr, s, hsome, ?_⟩
        have := hde r hr s hsome
        rw [this] at hdr
        by_cases hp : (parse_match_date s).isSome = true
        · rw [if_pos hp] at hdr; cases hdr
        · exact Option.not_isSome_iff_eq_none.mp hp
    · rintro ⟨r, hr, s, hsome, hbad⟩
      have hdr : dateErr r = some .parseError := by
        rw [hde r hr s hsome, hbad]
        rfl
      unfold process_matches
      rw [if_neg (by simp [hne])]
      cases hfs : recs.findSome? dateErr with
      | none =>
        have := (findSome?_eq_none_iff_my dateErr recs).mp hfs r hr
        rw [this] at hdr
        cases hdr
      | some e =>
        obtain ⟨r2, hr2, hdr2⟩ := findSome?_mem dateErr recs e hfs
        rcases hcases r2 hr2 with hnone | hpe
        · rw [hnone] at hdr2; cases hdr2
        · rw [hpe] at hdr2
          simp only [Option.some.injEq] at hdr2
          rw [hdr2]
  · intro out h
    unfold process_matches at h
    rw [if_neg (by simp [hne])] at h
    cases hfs : recs.findSome? dateErr with
    | none =>
      rw [hfs] at h
      simp only [Except.ok.injEq] at h
      subst h
      exact ⟨List.perm_insertionSort matchDateLe recs,
             List.sorted_insertionSort matchDateLe recs⟩
    | some e => rw [hfs] at h; cases h

/-- Claim C7 witness: the two-match example has string dates, does not raise
a parse error, and its tabulated output is the input sorted by date; a batch
containing an unrecognizable date string raises the parse error. -/
theorem c7_witness :
    (([matchJan1, matchJan2] : List Record).Perm exMatches
      ∧ List.Sorted matchDateLe [matchJan1, matchJan2])
    ∧ process_matches [matchJan2, matchJan1, matchBadDate] = .error .parseError := by
  refine ⟨(c7_matches_parse_and_sort exMatches rfl (by decide)).2 [matchJan1, matchJan2] rfl, ?_⟩
  exact (c7_matches_parse_and_sort [matchJan2, matchJan1, matchBadDate] rfl (by decide)).1.mpr
    ⟨matchBadDate,
      List.mem_cons_of_mem _ (List.mem_cons_of_mem _ (List.mem_cons_self _ _)),
      "not-a-date", rfl, rfl⟩

/-- Claim C4: in every tabulated event table the derived timestamp column is
computed as minute*60 + second in exact integer arithmetic, row by row. -/
theorem c4_timestamp (recs : List Record) (rows : List EventRow)
    (hp : process_events recs = some rows) :
    rows.length = recs.length ∧
    ∀ i (hi : i < recs.length) (hj : i < rows.length),
      ∃ m s, asInt (getField (recs.get ⟨i, hi⟩) "minute") = some m
        ∧ asInt (getField (recs.get ⟨i, hi⟩) "second") = some s
        ∧ (rows.get ⟨i, hj⟩).timestamp = m * 60 + s := by
  unfold process_events at hp
  split at hp
  · cases hp
  · obtain ⟨hlen, hidx⟩ := mapRows_spec _ recs rows hp
    refine ⟨hlen, ?_⟩
    intro i hi hj
    have h := hidx i hi hj
    rw [toRow_eq_some_iff] at h
    obtain ⟨tfs, teamfs, pfs, m, s, _, _, _, h4, h5, hrow⟩ := h
    exact ⟨m, s, h4, h5, by rw [hrow]⟩

/-- Claim C4 witness: the spec's sample event at minute 10, second 30 is
tabulated with timestamp 630. -/
theorem c4_witness :
    process_events exEventsC4 = some rowsC4
    ∧ rowsC4.length = exEventsC4.length
    ∧ rowsC4.map (fun row => row.timestamp) = [630]
    ∧ asInt (getField evShot1 "minute") = some 10
    ∧ asInt (getField evShot1 "second") = some 30 :=
  ⟨rfl, (c4_timestamp exEventsC4 rowsC4 rfl).1, rfl, rfl, rfl⟩

/-- Claim C10: validation checks only top-level key presence, so events whose
nested type, team or player object lacks a `name` key still validate
unchanged; tabulation succeeds on them, deriving each name column from the
nested object and yielding the absent value for an object without a name. -/
theorem c10_nested_objects_without_name (recs : List Record)
    (hne : recs.isEmpty = false)
    (hshape : ∀ r ∈ recs, eventShapeOk r = true) :
    validate_event_data recs = recs
    ∧ ∃ rows, process_events recs = some rows
        ∧ rows.length = recs.length
        ∧ ∀ i (hi : i < recs.length) (hj : i < rows.length),
            (rows.get ⟨i, hj⟩).event_type = nestedName (recs.get ⟨i, hi⟩) "type"
            ∧ (rows.get ⟨i, hj⟩).team_name = nestedName (recs.get ⟨i, hi⟩) "team"
            ∧ (rows.get ⟨i, hj⟩).player_name = nestedName (recs.get ⟨i, hi⟩) "player"
            ∧ (objHasName (recs.get ⟨i, hi⟩) "type" = false →
                (rows.get ⟨i, hj⟩).event_type = none)
            ∧ (objHasName (recs.get ⟨i, hi⟩) "team" = false →
                (rows.get ⟨i, hj⟩).team_name = none)
            ∧ (objHasName (recs.get ⟨i, hi⟩) "player" = false →
                (rows.get ⟨i, hj⟩).player_name = none) := by
  have hget : ∀ r ∈ recs,
      (asObj (getField r "type")).isSome = true
      ∧ (asObj (getField r "team")).isSome = true
      ∧ (asObj (getField r "player")).isSome = true
      ∧ (asInt (getField r "minute")).isSome = true
      ∧ (asInt (getField r "second")).isSome = true
      ∧ event_required.all (fun f => hasField r f) = true := by
    intro r hr
    have h := hshape r hr
    unfold eventShapeOk at h
    simp only [Bool.and_eq_true] at h
    exact ⟨h.1.1.1.1.2, h.1.1.1.2, h.1.1.2, h.1.2, h.2, h.1.1.1.1.1⟩
  have hval : validate_event_data recs = recs := by
    unfold validate_event_data validate_records
    exact List.filter_eq_self.mpr (fun r hr => (hget r hr).2.2.2.2.2)
  have hrow_some : ∀ r ∈ recs,
      (toRow (recs.any (fun x => hasField x "shot")) r).isSome = true := by
    intro r hr
    obtain ⟨h1, h2, h3, h4, h5, _⟩ := hget r hr
    obtain ⟨tfs, ht⟩ := Option.isSome_iff_exists.mp h1
    obtain ⟨teamfs, hteam⟩ := Option.isSome_iff_exists.mp h2
    obtain ⟨pfs, hpl⟩ := Option.isSome_iff_exists.mp h3
    obtain ⟨m, hm⟩ := Option.isSome_iff_exists.mp h4
    obtain ⟨s, hsec⟩ := Option.isSome_iff_exists.mp h5
    rw [Option.isSome_iff_exists]
    exact ⟨_, (toRow_eq_some_iff _ r _).mpr
      ⟨tfs, teamfs, pfs, m, s, ht, hteam, hpl, hm, hsec, rfl⟩⟩
  obtain ⟨rows, hrows⟩ := mapRows_isSome _ recs hrow_some
  have hp : process_events recs = some rows := by
    unfold process_events
    rw [if_neg (by simp [hne])]
    exact hrows
  obtain ⟨hlen, hidx⟩ := mapRows_spec _ recs rows hrows
  refine ⟨hval, rows, hp, hlen, ?_⟩
  intro i hi hj
  have h := hidx i hi hj
  rw [toRow_eq_some_iff] at h
  obtain ⟨tfs, teamfs, pfs, m, s, h1, h2, h3, _, _, hrow⟩ := h
  have het : (rows.get ⟨i, hj⟩).event_type = strName tfs := by rw [hrow]
  have htm : (rows.get ⟨i, hj⟩).team_name = strName teamfs := by rw [hrow]
  have hpn : (rows.get ⟨i, hj⟩).player_name = strName pfs := by rw [hrow]
  have hn1 : nestedName (recs.get ⟨i, hi⟩) "type" = strName tfs := by
    unfold nestedName; rw [h1]
  have hn2 : nestedName (recs.get ⟨i, hi⟩) "team" = strName teamfs := by
    unfold nestedName; rw [h2]
  have hn3 : nestedName (recs.get ⟨i, hi⟩) "player" = strName pfs := by
    unfold nestedName; rw [h3]
  refine ⟨het.trans hn1.symm, htm.trans hn2.symm, hpn.trans hn3.symm, ?_, ?_, ?_⟩
  · intro hno
    unfold objHasName at hno
    rw [h1] at hno
    rw [het]
    exact strName_eq_none_of_no_name tfs hno
  · intro hno
    unfold objHasName at hno
    rw [h2] at hno
    rw [htm]
    exact strName_eq_none_of_no_name teamfs hno
  · intro hno
    unfold objHasName at hno
    rw [h3] at hno
    rw [hpn]
    exact strName_eq_none_of_no_name pfs hno

/-- Claim C10 witness: an event whose type, team and player objects are all
empty validates unchanged and tabulates with all three name columns absent. -/
theorem c10_witness :
    validate_event_data exEventsC10 = exEventsC10
    ∧ process_events exEventsC10 = some rowsC10
    ∧ rowsC10.map (fun row => (row.event_type, row.team_name, row.player_name))
        = [(none, none, none)]
    ∧ objHasName evAllNoNames "type" = false := by
  obtain ⟨hval, _, _, _, _⟩ := c10_nested_objects_without_name exEventsC10 rfl (by decide)
  exact ⟨hval, rfl, rfl, rfl⟩

/-- Claim C9 (amended): row by row, the derived shot column equals the
event's nested shot detail when event_type is "Shot" and the record carries
one; a Shot row without a detail gets the empty object only when no record in
the batch has a shot field, and the missing value (NaN) when some other
record does (the shot column then exists and this row's cell is empty); every
non-Shot row gets the empty object. -/
theorem c9_shot_column (recs : List Record) (rows : List EventRow)
    (hp : process_events recs = some rows) :
    ∀ i (hi : i < recs.length) (hj : i < rows.length),
      ((rows.get ⟨i, hj⟩).event_type ≠ some "Shot" →
        (rows.get ⟨i, hj⟩).shot = .vobj [])
      ∧ ((rows.get ⟨i, hj⟩).event_type = some "Shot" →
          (∀ v, getField (recs.get ⟨i, hi⟩) "shot" = some v →
            (rows.get ⟨i, hj⟩).shot = v)
          ∧ (getField (recs.get ⟨i, hi⟩) "shot" = none →
              recs.any (fun r => hasField r "shot") = false →
              (rows.get ⟨i, hj⟩).shot = .vobj [])
          ∧ (getField (recs.get ⟨i, hi⟩) "shot" = none →
              recs.any (fun r => hasField r "shot") = true →
              (rows.get ⟨i, hj⟩).shot = .vnull)) := by
  unfold process_events at hp
  split at hp
  · cases hp
  · obtain ⟨hlen, hidx⟩ := mapRows_spec _ recs rows hp
    intro i hi hj
    have h := hidx i hi hj
    rw [toRow_eq_some_iff] at h
    obtain ⟨tfs, teamfs, pfs, m, s, _, _, _, _, _, hrow⟩ := h
    have het : (rows.get ⟨i, hj⟩).event_type = strName tfs := by rw [hrow]
    have hshot : (rows.get ⟨i, hj⟩).shot
        = shotCell (recs.any (fun r => hasField r "shot")) (recs.get ⟨i, hi⟩) (strName tfs) := by
      rw [hrow]
    constructor
    · intro hne
      rw [het] at hne
      rw [hshot]
      unfold shotCell
      rw [if_neg (by simp only [beq_iff_eq]; exact hne)]
    · intro heq
      rw [het] at heq
      refine ⟨?_, ?_, ?_⟩
      · intro v hv
        rw [hshot]
        unfold shotCell
        rw [if_pos (by simp only [beq_iff_eq]; exact heq), hv]
      · intro hnone hcol
        rw [hshot]
        unfold shotCell
        rw [if_pos (by simp only [beq_iff_eq]; exact heq), hnone, hcol]
        rfl
      · intro hnone hcol
        rw [hshot]
        unfold shotCell
        rw [if_pos (by simp only [beq_iff_eq]; exact heq), hnone, hcol]
        rfl

/-- Claim C9 counterexample: in a batch where another event supplies a shot
field, a Shot event without its own shot detail is tabulated with a null
cell, not the empty object the claim promises. -/
theorem c9_counterexample :
    validate_event_data exEventsC9 = exEventsC9
    ∧ process_events exEventsC9 = some rowsC9
    ∧ rowsC9.map (fun row => row.event_type) = [some "Shot", some "Shot"]
    ∧ getField evShotNoDetail "shot" = none
    ∧ rowsC9.map (fun row => row.shot) = [.vnull, .vobj [("outcome", .vstr "Goal")]]
    ∧ Value.vnull ≠ Value.vobj [] :=
  ⟨rfl, rfl, rfl, rfl, rfl, fun h => Value.noConfusion h⟩

/-- Claim C9 witness: the amended rule instantiated on the two-Shot batch:
the detail-less Shot row's cell is null because the other row supplies the
shot column, and the detail-carrying row keeps its detail object. -/
theorem c9_witness :
    process_events exEventsC9 = some rowsC9
    ∧ rowsC9.map (fun row => row.shot)
        = [Value.vnull, Value.vobj [("outcome", Value.vstr "Goal")]] := by
  have h := c9_shot_column exEventsC9 rowsC9 rfl 0 (by decide) (by decide)
  have hnull := (h.2 rfl).2.2 rfl rfl
  exact ⟨rfl, rfl⟩

/-- Claim C3 (amended): team stats have exactly one row per distinct non-null
team_name (the grouping drops rows whose team_name is null); for tables whose
ids are non-null each team's total_events equals the number of rows carrying
that team_name; and for tables whose event_types are non-null each team's
event_breakdown values sum to its total_events. -/
theorem c3_team_stats (rows : List EventRow)
    (hid : ∀ row ∈ rows, isNullV row.id = false)
    (het : ∀ row ∈ rows, (row.event_type).isSome = true) :
    ((get_team_stats rows).map (fun s => s.team_name)).Perm
      ((rows.filterMap (fun row => row.team_name)).dedup)
    ∧ ∀ s ∈ get_team_stats rows,
        s.total_events
          = (rows.filter (fun row => row.team_name == some s.team_name)).length
        ∧ (s.event_breakdown.map (fun kv => kv.2)).sum = s.total_events := by
  have hproj : (get_team_stats rows).map (fun s => s.team_name) = teamKeys rows := by
    unfold get_team_stats
    rw [List.map_map]
    exact List.map_id _
  constructor
  · rw [hproj]
    unfold teamKeys
    exact List.perm_insertionSort strLeP _
  · intro s hs
    unfold get_team_stats at hs
    rw [List.mem_map] at hs
    obtain ⟨t, _, heq⟩ := hs
    subst heq
    have hgsub : ∀ row ∈ rows.filter (fun row => row.team_name == some t), row ∈ rows :=
      fun row hrow => List.mem_of_mem_filter hrow
    have hfid : (rows.filter (fun row => row.team_name == some t)).filter
        (fun row => !(isNullV row.id))
        = rows.filter (fun row => row.team_name == some t) :=
      List.filter_eq_self.mpr (fun row hrow => by rw [hid row (hgsub row hrow)]; rfl)
    constructor
    · show ((rows.filter (fun row => row.team_name == some t)).filter
        (fun row => !(isNullV row.id))).length
        = (rows.filter (fun row => row.team_name == some t)).length
      rw [hfid]
    · show ((breakdownOf (rows.filter (fun row => row.team_name == some t))).map
        (fun kv => kv.2)).sum
        = ((rows.filter (fun row => row.team_name == some t)).filter
            (fun row => !(isNullV row.id))).length
      rw [hfid]
      unfold breakdownOf
      rw [List.map_map]
      have hcnt := List.sum_map_count_dedup_eq_length
        ((rows.filter (fun row => row.team_name == some t)).filterMap
          (fun row => row.event_type))
      have hflen : ((rows.filter (fun row => row.team_name == some t)).filterMap
          (fun row => row.event_type)).length
          = (rows.filter (fun row => row.team_name == some t)).length :=
        length_filterMap_of_isSome _ _ (fun row hrow => het row (hgsub row hrow))
      exact hcnt.trans hflen

/-- Claim C3 counterexample: a tabulated table reachable from validated
events in which one team's breakdown sums to 0 while its total_events is 1
(null event_type is not counted by value_counts), another team's
total_events is 0 while it has 1 row (null id is not counted), and a
third row's null team_name is missing from the two stat rows entirely. -/
theorem c3_counterexample :
    validate_event_data exEventsC3 = exEventsC3
    ∧ process_events exEventsC3 = some rowsC3
    ∧ rowsC3.length = 3
    ∧ rowsC3.map (fun row => row.team_name) = [some "A", some "B", none]
    ∧ (get_team_stats rowsC3).map
        (fun s => (s.team_name, s.total_events, (s.event_breakdown.map (fun kv => kv.2)).sum))
        = [("A", 1, 0), ("B", 0, 1)]
    ∧ (rowsC3.filter (fun row => row.team_name == some "B")).length = 1
    ∧ ¬ (∀ s ∈ get_team_stats rowsC3,
          (s.event_breakdown.map (fun kv => kv.2)).sum = s.total_events) := by
  refine ⟨rfl, rfl, rfl, rfl, rfl, rfl, ?_⟩
  intro h
  exact absurd (h ⟨"A", 1, []⟩ (by decide)) (by decide)

/-- Claim C3 witness: on a table with non-null ids and event_types the
amended statement instantiates: two team rows, totals matching row counts. -/
theorem c3_witness :
    ((get_team_stats rowsC5w).map (fun s => s.team_name)).Perm
      ((rowsC5w.filterMap (fun row => row.team_name)).dedup)
    ∧ (get_team_stats rowsC5w).map
        (fun s => (s.team_name, s.total_events, (s.event_breakdown.map (fun kv => kv.2)).sum))
        = [("A", 3, 3)] := by
  refine ⟨(c3_team_stats rowsC5w (by decide) (by decide)).1, rfl⟩

/-- Claim C5 (amended): player stats group by the (team_name, player_name)
pair, one row per distinct fully-named pair (rows whose team or player name
is null are dropped by the grouping); with non-null ids each group's
total_events is its row count. -/
theorem c5_player_stats (rows : List EventRow)
    (hid : ∀ row ∈ rows, isNullV row.id = false) :
    ((get_player_stats rows).map (fun s => (s.team_name, s.player_name))).Perm
      ((rows.filterMap keyTP).dedup)
    ∧ ∀ s ∈ get_player_stats rows,
        s.total_events
          = (rows.filter
              (fun row => keyTP row == some (s.team_name, s.player_name))).length := by
  have hproj : (get_player_stats rows).map (fun s => (s.team_name, s.player_name))
      = pairKeys rows := by
    unfold get_player_stats
    rw [List.map_map]
    exact List.map_id _
  constructor
  · rw [hproj]
    unfold pairKeys
    exact List.perm_insertionSort pairLeP _
  · intro s hs
    unfold get_player_stats at hs
    rw [List.mem_map] at hs
    obtain ⟨k, _, heq⟩ := hs
    subst heq
    have hfid : (rows.filter (fun row => keyTP row == some k)).filter
        (fun row => !(isNullV row.id))
        = rows.filter (fun row => keyTP row == some k) :=
      List.filter_eq_self.mpr
        (fun row hrow => by rw [hid row (List.mem_of_mem_filter hrow)]; rfl)
    show ((rows.filter (fun row => keyTP row == some k)).filter
        (fun row => !(isNullV row.id))).length
        = (rows.filter (fun row => keyTP row == some k)).length
    rw [hfid]

/-- Claim C5 counterexample: an event whose player object lacks a name
validates and tabulates to one row, but the (team, player) grouping drops it,
yielding zero stat rows for one distinct (team, null) combination. -/
theorem c5_counterexample :
    validate_event_data exEventsC5 = exEventsC5
    ∧ process_events exEventsC5 = some rowsC5
    ∧ rowsC5.length = 1
    ∧ rowsC5.map (fun row => (row.team_name, row.player_name)) = [(some "A", none)]
    ∧ get_player_stats rowsC5 = [] :=
  ⟨rfl, rfl, rfl, rfl, rfl⟩

/-- Claim C5 witness: the spec's concrete scenario — two events by one player
and one by another, same team — yields exactly two groups with total_events
2 and 1. -/
theorem c5_witness :
    ((get_player_stats rowsC5w).map (fun s => (s.team_name, s.player_name))).Perm
      ((rowsC5w.filterMap keyTP).dedup)
    ∧ (get_player_stats rowsC5w).map
        (fun s => (s.team_name, s.player_name, s.total_events))
        = [("A", "P1", 2), ("A", "P2", 1)] :=
  ⟨(c5_player_stats rowsC5w (by decide)).1, rfl⟩

/-- Claim C8 (amended): the heatmap location stage filters nothing and
records no dropped-row count: on success the output is exactly one coordinate
pair per event-type-filtered row, rows with a missing location passing
through as absent coordinates; and instead of dropping malformed rows the
stage fails with an error whenever the location column exists but the widest
remaining location is not a two-element array. -/
theorem c8_heatmap_no_filtering (rows : List EventRow) (etFilter : Option String) :
    (∀ out, create_heatmap_locs rows etFilter = .ok out →
      out = (filterByType rows etFilter).map
        (fun row => (locElt row.location 0, locElt row.location 1))
      ∧ out.length = (filterByType rows etFilter).length)
    ∧ (rows.all (fun row => row.location.isNone) = false →
        locMaxWidth (filterByType rows etFilter) ≠ 2 →
        create_heatmap_locs rows etFilter = .error .valueError)
    ∧ (∀ i, locElt none i = none) := by
  refine ⟨?_, ?_, fun i => rfl⟩
  · intro out h
    unfold create_heatmap_locs at h
    split at h
    · cases h
    · dsimp only at h
      split at h
      · simp only [Except.ok.injEq] at h
        subst h
        exact ⟨rfl, by rw [List.length_map]⟩
      · cases h
  · intro h1 h2
    unfold create_heatmap_locs
    rw [if_neg (by simp [h1])]
    rw [if_neg (by simp only [beq_iff_eq]; exact h2)]

/-- Claim C8 counterexample: a row with no location is not filtered out — it
reaches the histogram input as an absent coordinate pair and no count is
recorded anywhere — and a three-element location makes the step fail instead
of being dropped. -/
theorem c8_counterexample :
    rowLocMissing.location = none
    ∧ create_heatmap_locs [rowLocGood, rowLocMissing] none
        = .ok [(some (.vint 100), some (.vint 50)), (none, none)]
    ∧ create_heatmap_locs [rowLocGood, rowLocThree] none = .error .valueError :=
  ⟨rfl, rfl, rfl⟩

/-- Claim C8 witness: the amended statement instantiated on the two concrete
batches: the success case keeps both rows (one pair per row), and the batch
with a three-element location errors. -/
theorem c8_witness :
    ((create_heatmap_locs [rowLocGood, rowLocMissing] none).toOption.getD []).length
      = (filterByType [rowLocGood, rowLocMissing] none).length
    ∧ create_heatmap_locs [rowLocGood, rowLocThree] none = .error .valueError := by
  constructor
  · have h := ((c8_heatmap_no_filtering [rowLocGood, rowLocMissing] none).1
      [(some (.vint 100), some (.vint 50)), (none, none)] rfl).2
    exact h
  · exact (c8_heatmap_no_filtering [rowLocGood, rowLocThree] none).2.1 rfl (by decide)
